import Mathlib

/-!
# Verification of `Population.py` (pypm/pypm)

Shallow embedding of `src/src/Population.py`. Population values (history and
future entries) are modelled as rationals `ℚ`: the Python code stores floats
(expectation mode) or integers (data mode) and performs only field arithmetic,
comparison, and rounding on them. Random draws (`scipy.stats` calls) do not
change the embedding's state deterministically; each realized draw is passed
to the embedded operation as an explicit argument, and distributional facts
are expressed as support predicates on that argument.

Operations that can raise a Python exception (IndexError on `future[0]`,
IndexError on `history[-1]`, AttributeError on `None.get_value()`,
TypeError in the constructor) return `Option`/`Except`, with `none`/`.error`
marking the raise.
-/

namespace PyPM

/-- Parameter objects (from Parameter.py) as read by `Population`: only
`get_value()` is used, so a parameter is its name and current value. -/
structure Parameter where
  name : String
  value : ℚ
deriving DecidableEq, Repr

/-- The constructor argument `initial_value` may be a Python float, int,
Parameter object, or a value of any other type (rejected). A non-numeric,
non-Parameter argument is represented by `other` with an opaque description
string standing for the Python object. -/
inductive InitArg where
  | flt (v : ℚ)
  | intg (n : ℤ)
  | paramArg (p : Parameter)
  | other (descr : String)
deriving DecidableEq, Repr

/-- The stored `self.initial_value` of a successfully constructed Population:
the constructor accepted either a numeric literal or a Parameter object. -/
inductive InitialValue where
  | lit (v : ℚ)
  | par (p : Parameter)
deriving DecidableEq, Repr

/-- The constructor argument `report_noise_par` may be `None` (the default),
a Parameter object, or a value of any other type. -/
inductive NoiseParArg where
  | nonePar
  | paramArg (p : Parameter)
  | other (descr : String)
deriving DecidableEq, Repr

/-- The check `isinstance(report_noise_par, Parameter)`. -/
def NoiseParArg.isParameter : NoiseParArg → Bool
  | .paramArg _ => true
  | _ => false

/-- The accepted types for `initial_value`:
`isinstance(initial_value, (float, int))` or `isinstance(initial_value, Parameter)`. -/
def InitArg.isValidType : InitArg → Bool
  | .other _ => false
  | _ => true

/-- Delay objects (from Delay.py) as read by `Population`: only the attribute
`future_expectations` (the day-offset probability masses) is accessed. -/
structure Delay where
  future_expectations : List ℚ
deriving DecidableEq, Repr

/-- State of a `Population` object after construction
(`Population.__init__`, src/src/Population.py lines 36-81). -/
structure Population where
  name : String
  description : String
  history : List ℚ
  initialization_by_parameter : Bool
  future : List ℚ
  initial_value : InitialValue
  color : String
  hidden : Bool
  monotonic : Bool
  show_sim : Bool
  report_noise : Bool
  report_noise_par : NoiseParArg
  missed_yesterday : ℚ
deriving DecidableEq, Repr

/-- Body shared by the success branches of `Population.__init__` once
`initial_value` has been classified: fields set exactly as in
src/src/Population.py lines 52-81. -/
def mkPopulation (population_name : String) (h0 : ℚ) (byParam : Bool)
    (iv : InitialValue) (description : String) (hidden : Bool) (color : String)
    (show_sim : Bool) (report_noise : Bool) (report_noise_par : NoiseParArg) :
    Except String Population :=
  if report_noise && !(NoiseParArg.isParameter report_noise_par) then
    Except.error ("Error setting report_noise_par in population (" ++
      population_name ++ ") - it must be a Parameter object")
  else
    Except.ok
      { name := population_name
        description := description
        history := [h0]
        initialization_by_parameter := byParam
        future := []
        initial_value := iv
        color := color
        hidden := hidden
        monotonic := true
        show_sim := show_sim
        report_noise := report_noise
        report_noise_par := report_noise_par
        missed_yesterday := 0 }

/-- Constructor `Population.__init__` (src/src/Population.py lines 36-81).
`history` is initialized to `[initial_value]` for a float or int, to
`[initial_value.get_value()]` for a Parameter; any other type raises
TypeError.  With `report_noise` true, a `report_noise_par` that is `None`
or not a Parameter raises TypeError. -/
def Population.init (population_name : String) (initial_value : InitArg)
    (description : String) (hidden : Bool) (color : String) (show_sim : Bool)
    (report_noise : Bool) (report_noise_par : NoiseParArg) :
    Except String Population :=
  match initial_value with
  | .flt v => mkPopulation population_name v false (InitialValue.lit v)
      description hidden color show_sim report_noise report_noise_par
  | .intg n => mkPopulation population_name (n : ℚ) false (InitialValue.lit (n : ℚ))
      description hidden color show_sim report_noise report_noise_par
  | .paramArg p => mkPopulation population_name p.value true (InitialValue.par p)
      description hidden color show_sim report_noise report_noise_par
  | .other _ => Except.error ("Error setting initial_value to population (" ++
      population_name ++ ") - must be a float, int, or Parameter object")

/-- The append `self.history.append(self.history[-1] + next_value)` followed
by the clamp `if self.history[-1] < 0: self.history[-1] = 0`
(src/src/Population.py lines 107-110).  `last` is `history[-1]` before the
append. -/
def append_clamped (history : List ℚ) (last next_value : ℚ) : List ℚ :=
  history ++ [if last + next_value < 0 then 0 else last + next_value]

/-- Method `Population.do_time_step` (src/src/Population.py lines 86-114).

`expectations` is the mode flag. `n_report` is the realized value of the
binomial draw `stats.binom.rvs(self.future[0], frac_report)`; it is read
only on the report-noise branch. The draws of `frac_report` (uniform on
[low_edge, 1)) and of `n_report` touch no Population state beyond their
realized values.

`none` marks a raised exception:
- `history[-1]` on an empty history raises IndexError (both branches);
- on the report-noise branch, `self.report_noise_par.get_value()` raises
  AttributeError when the field is not a Parameter object, and
  `self.future[0]` raises IndexError when `future` is empty.

The guard `self.future is not None` is always true (the constructor and
`reset` both set `future` to a list), as is `hasattr(self, 'report_noise')`. -/
def do_time_step (pop : Population) (expectations : Bool) (n_report : ℤ) :
    Option Population :=
  if expectations || !pop.report_noise then
    -- next_value = future[0] if future is non-empty, else 0
    match pop.history.getLast? with
    | none => none
    | some last =>
        some { pop with
               history := append_clamped pop.history last (pop.future.headD 0)
               future := pop.future.tail }
  else
    match pop.report_noise_par with
    | .paramArg _ =>
        match pop.future.head? with
        | none => none
        | some f0 =>
            match pop.history.getLast? with
            | none => none
            | some last =>
                -- next_value = missed_yesterday + n_report;
                -- missed_yesterday = future[0] - n_report
                some { pop with
                       missed_yesterday := f0 - (n_report : ℚ)
                       history := append_clamped pop.history last
                         (pop.missed_yesterday + (n_report : ℚ))
                       future := pop.future.tail }
    | _ => none

/-- The value `self.initial_value.get_value()` when the stored initial value
is a Parameter, the stored literal otherwise.  The Parameter object is mutable
and aliased, so the value read at reset time is supplied explicitly as
`currentParamValue`. -/
def InitialValue.reread : InitialValue → ℚ → ℚ
  | .lit v, _ => v
  | .par _, cur => cur

/-- Method `Population.reset` (src/src/Population.py lines 116-125).
`currentParamValue` is the current value of the initial-value Parameter at
the time of the call (used only when the Population was initialized by a
Parameter). -/
def reset (pop : Population) (currentParamValue : ℚ) : Population :=
  { pop with
    future := []
    history := [InitialValue.reread pop.initial_value currentParamValue]
    missed_yesterday := 0 }

/-- Method `Population.remove_history` (src/src/Population.py lines 127-132):
when history is non-empty, replace it with the singleton holding
`history[-1]`. -/
def remove_history (pop : Population) : Population :=
  if pop.history.length > 0 then
    { pop with history := [pop.history.getLastD 0] }
  else pop

/-- Python `round` with one argument: round half to even (banker's
rounding), returning an integer. -/
def pyRound (x : ℚ) : ℤ :=
  if x - ⌊x⌋ < 1/2 then ⌊x⌋
  else if 1/2 < x - ⌊x⌋ then ⌊x⌋ + 1
  else if ⌊x⌋ % 2 = 0 then ⌊x⌋ else ⌊x⌋ + 1

/-- Python `int(...)` applied to a number: truncation toward zero. -/
def pyInt (x : ℚ) : ℤ :=
  if 0 ≤ x then ⌊x⌋ else -⌊-x⌋

/-- The per-element loop body shared by `scale_history` and `scale_future`
(src/src/Population.py lines 134-150): multiply by `scale`; in data mode
(`expectations = false`) store `int(round(element * scale))`. -/
def scale_list (l : List ℚ) (scale : ℚ) (expectations : Bool) : List ℚ :=
  if expectations then l.map (fun x => x * scale)
  else l.map (fun x => ((pyRound (x * scale) : ℤ) : ℚ))

/-- Method `Population.scale_history` (src/src/Population.py lines 134-141). -/
def scale_history (pop : Population) (scale : ℚ) (expectations : Bool) :
    Population :=
  { pop with history := scale_list pop.history scale expectations }

/-- Method `Population.scale_future` (src/src/Population.py lines 143-150). -/
def scale_future (pop : Population) (scale : ℚ) (expectations : Bool) :
    Population :=
  { pop with future := scale_list pop.future scale expectations }

/-- The loop of `Population.update_future_expectation`
(src/src/Population.py lines 155-160): for each index `i` into the delay's
`future_expectations`, add `future_expectations[i] * scale` to `future[i]`
when that slot exists, otherwise append it.  Once the loop index passes the
end of `future` every later iteration appends (each append grows `future`
by exactly one while `i` advances by one). -/
def update_future_list : List ℚ → ℚ → List ℚ → List ℚ
  | future, _, [] => future
  | [], scale, d :: ds => d * scale :: update_future_list [] scale ds
  | f :: fs, scale, d :: ds => (f + d * scale) :: update_future_list fs scale ds

/-- Method `Population.update_future_expectation` (src/src/Population.py
lines 152-160). -/
def update_future_expectation (pop : Population) (scale : ℚ) (delay : Delay) :
    Population :=
  { pop with future := update_future_list pop.future scale delay.future_expectations }

/-- The loop of `Population.update_future_data` (src/src/Population.py
lines 166-172): add each entry of the realized multinomial draw `dist`
offset-wise into `future`, appending past the end. -/
def add_draws : List ℚ → List ℕ → List ℚ
  | future, [] => future
  | [], n :: ns => (n : ℚ) :: add_draws [] ns
  | f :: fs, n :: ns => (f + (n : ℚ)) :: add_draws fs ns

/-- Support of `stats.multinomial.rvs(n, probs)`: one draw is a vector of
natural numbers, one per category, summing to the integer total `n`. -/
def multinomial_support (n : ℤ) (probs : List ℚ) (dist : List ℕ) : Prop :=
  dist.length = probs.length ∧ (dist.sum : ℤ) = n

/-- Method `Population.update_future_data` (src/src/Population.py
lines 162-172): the draw is
`dist = stats.multinomial.rvs(int(scale), delay.future_expectations)` —
note the total is `int(scale)` (truncation), and `dist` is the realized
draw, passed here explicitly. -/
def update_future_data (pop : Population) (_scale : ℚ) (_delay : Delay)
    (dist : List ℕ) : Population :=
  { pop with future := add_draws pop.future dist }

/-- Method `Population.update_future_fast` (src/src/Population.py
lines 174-180): add `value` to `future[0]`, creating the slot when `future`
is empty. -/
def update_future_fast (pop : Population) (value : ℚ) : Population :=
  { pop with future :=
      match pop.future with
      | [] => [value]
      | f :: fs => (f + value) :: fs }

/-! ## Helper lemmas -/

/-- Python's one-argument `round` lands on a nearest integer: the distance
from `x` to `pyRound x` is at most one half. -/
theorem pyRound_dist_le_half (x : ℚ) : |((pyRound x : ℤ) : ℚ) - x| ≤ 1/2 := by
  have h0 : (⌊x⌋ : ℚ) ≤ x := Int.floor_le x
  have h1 : x < ⌊x⌋ + 1 := Int.lt_floor_add_one x
  unfold pyRound
  split
  · rw [abs_le]
    constructor <;> linarith
  · split
    · rw [abs_le]
      constructor <;> push_cast <;> linarith
    · split <;> (rw [abs_le]; constructor <;> push_cast <;> linarith)

/-- Every element of the history after the append-and-clamp is nonnegative,
provided every element before it was. -/
theorem append_clamped_nonneg (history : List ℚ) (last v : ℚ)
    (h : ∀ x ∈ history, 0 ≤ x) : ∀ x ∈ append_clamped history last v, 0 ≤ x := by
  intro x hx
  unfold append_clamped at hx
  rcases List.mem_append.mp hx with h1 | h2
  · exact h x h1
  · rw [List.mem_singleton.mp h2]
    split <;> linarith

/-- The append-and-clamp grows the history by exactly one element. -/
theorem append_clamped_length (history : List ℚ) (last v : ℚ) :
    (append_clamped history last v).length = history.length + 1 := by
  simp [append_clamped]

/-- The append-and-clamp leaves the previously recorded entries unchanged. -/
theorem append_clamped_take (history : List ℚ) (last v : ℚ) :
    (append_clamped history last v).take history.length = history := by
  simp [append_clamped]

/-! ## Concrete populations used by witnesses and counterexamples -/

/-- A Parameter playing the role of the backlog parameter
`report_noise_par`. -/
def noisePar : Parameter := { name := "backlog", value := 1/2 }

/-- A plain Population (no reporting noise) mid-run. -/
def wpop : Population :=
  { name := "w"
    description := ""
    history := [3, 5]
    initialization_by_parameter := false
    future := [2, 1]
    initial_value := InitialValue.lit 3
    color := "black"
    hidden := true
    monotonic := true
    show_sim := false
    report_noise := false
    report_noise_par := NoiseParArg.nonePar
    missed_yesterday := 0 }

/-- A Population with reporting noise enabled, non-empty future, and a
pending backlog. -/
def npop : Population :=
  { wpop with
    history := [3]
    future := [4]
    report_noise := true
    report_noise_par := NoiseParArg.paramArg noisePar
    missed_yesterday := 2 }

/-- The reporting-noise Population with an empty future buffer. -/
def n0pop : Population := { npop with future := [] }

/-- A Population whose pending future increment is negative (as a Subtractor
can produce), so that the clamp in `do_time_step` fires. -/
def negpop : Population := { wpop with history := [0], future := [-5] }

/-- The state of `wpop` after one expectation-mode time step. -/
def wstep : Population := { wpop with history := [3, 5, 7], future := [1] }

/-- Evaluation of one expectation-mode step on the concrete `wpop`. -/
theorem wpop_step_eq : do_time_step wpop true 0 = some wstep := by
  simp only [do_time_step, wpop, wstep, append_clamped]
  norm_num

/-! ## Claims -/

/-- C6: for every Population, `reset` leaves `history` equal to the
single-element list holding the initial value — re-read from the
Parameter's current value when the Population was initialized by a
Parameter, the stored literal otherwise — leaves `future` empty, and sets
the `missed_yesterday` backlog counter to 0. -/
theorem C6_reset (pop : Population) (currentParamValue : ℚ) :
    (reset pop currentParamValue).future = [] ∧
    (reset pop currentParamValue).missed_yesterday = 0 ∧
    (∀ v, pop.initial_value = InitialValue.lit v →
      (reset pop currentParamValue).history = [v]) ∧
    (∀ p, pop.initial_value = InitialValue.par p →
      (reset pop currentParamValue).history = [currentParamValue]) := by
  refine ⟨rfl, rfl, ?_, ?_⟩
  · intro v hv
    simp [reset, hv, InitialValue.reread]
  · intro p hp
    simp [reset, hp, InitialValue.reread]

/-- C7: for every Population with non-empty history, `remove_history`
replaces `history` with the single-element list containing the previous
last history value and changes no other field of the Population. -/
theorem C7_remove_history (pop : Population) (h : pop.history ≠ []) :
    remove_history pop = { pop with history := [pop.history.getLastD 0] } := by
  have hlen : 0 < pop.history.length := List.length_pos.mpr h
  simp [remove_history, hlen]

/-- C7 witness: `remove_history` applied to the concrete Population
`wpop`. -/
theorem C7_remove_history_witness :
    wpop.history ≠ [] ∧
    remove_history wpop = { wpop with history := [wpop.history.getLastD 0] } :=
  ⟨by simp [wpop], C7_remove_history wpop (by simp [wpop])⟩

/-- C8: for every Population and every scale, `scale_history`
(respectively `scale_future`) in expectation mode multiplies every element
of `history` (respectively `future`) by `scale`, and in data mode replaces
every element by the rounded value `int(round(element * scale))` — an
integer at distance at most one half from `element * scale`; in both modes
the length of the sequence is unchanged. -/
theorem C8_scale_history_future (pop : Population) (scale : ℚ) :
    (scale_history pop scale true).history = pop.history.map (fun x => x * scale) ∧
    (scale_future pop scale true).future = pop.future.map (fun x => x * scale) ∧
    (scale_history pop scale false).history
        = pop.history.map (fun x => ((pyRound (x * scale) : ℤ) : ℚ)) ∧
    (scale_future pop scale false).future
        = pop.future.map (fun x => ((pyRound (x * scale) : ℤ) : ℚ)) ∧
    (∀ b : Bool, (scale_history pop scale b).history.length = pop.history.length) ∧
    (∀ b : Bool, (scale_future pop scale b).future.length = pop.future.length) ∧
    (∀ x : ℚ, |((pyRound x : ℤ) : ℚ) - x| ≤ 1/2) := by
  refine ⟨rfl, rfl, rfl, rfl, ?_, ?_, pyRound_dist_le_half⟩ <;>
    (intro b; cases b <;> simp [scale_history, scale_future, scale_list])

/-- C9: constructing a Population with an `initial_value` that is not a
float, int, or Parameter object raises a fatal error, as does
`report_noise = true` with a `report_noise_par` that is missing or not a
Parameter object; every other argument combination constructs
successfully. -/
theorem C9_init_validation (population_name : String) (initial_value : InitArg)
    (description : String) (hidden : Bool) (color : String) (show_sim : Bool)
    (report_noise : Bool) (report_noise_par : NoiseParArg) :
    (∃ msg, Population.init population_name initial_value description hidden
        color show_sim report_noise report_noise_par = Except.error msg) ↔
      (InitArg.isValidType initial_value = false ∨
        (report_noise = true ∧ NoiseParArg.isParameter report_noise_par = false)) := by
  cases initial_value <;> cases report_noise_par <;> cases report_noise <;>
    simp [Population.init, mkPopulation, InitArg.isValidType, NoiseParArg.isParameter]

/-- C1 counterexample: in expectation mode on `negpop` (history ends at 0,
pending future increment -5) the appended history element is 0 — the clamp
fires — not `history[-1] + future[0] = -5` as the claim states. -/
theorem C1_counterexample :
    (do_time_step negpop true 0).map Population.history = some [0, 0] ∧
    negpop.history.getLastD 0 + negpop.future.headD 0 = -5 ∧
    (0 : ℚ) ≠ -5 := by
  refine ⟨?_, by norm_num [negpop, wpop], by norm_num⟩
  simp only [do_time_step, negpop, wpop, append_clamped]
  norm_num

/-- C1 (amended): for every Population (with its always non-empty history)
in expectation mode, `do_time_step` appends exactly one element equal to
`history[-1] + future[0]` (`history[-1] + 0` when `future` is empty)
clamped below at 0, and removes the consumed first element of `future`
(the length decreases by one when it was non-empty, stays empty
otherwise). -/
theorem C1_expectation_step (pop : Population) (n_report : ℤ) (last : ℚ)
    (hlast : pop.history.getLast? = some last) :
    do_time_step pop true n_report = some { pop with
        history := pop.history ++
          [if last + pop.future.headD 0 < 0 then 0 else last + pop.future.headD 0]
        future := pop.future.tail } ∧
    (pop.future ≠ [] → pop.future.tail.length + 1 = pop.future.length) ∧
    (pop.future = [] → pop.future.tail = []) := by
  refine ⟨?_, ?_, ?_⟩
  · simp [do_time_step, hlast, append_clamped]
  · intro h
    cases hf : pop.future with
    | nil => exact absurd hf h
    | cons a l => simp
  · intro h
    rw [h]
    rfl

/-- C1 witness: the amended statement evaluated on the concrete Population
`wpop`. -/
theorem C1_expectation_step_witness :
    wpop.history.getLast? = some 5 ∧
    (do_time_step wpop true 0 = some { wpop with
        history := wpop.history ++
          [if (5 : ℚ) + wpop.future.headD 0 < 0 then 0
           else 5 + wpop.future.headD 0]
        future := wpop.future.tail } ∧
      (wpop.future ≠ [] → wpop.future.tail.length + 1 = wpop.future.length) ∧
      (wpop.future = [] → wpop.future.tail = [])) :=
  ⟨rfl, C1_expectation_step wpop 0 5 rfl⟩

/-- C2: for every Population whose recorded history values are all ≥ 0,
after any successful call to `do_time_step` in either mode every history
value is ≥ 0, exactly one element was appended, and no earlier history
entry was modified. -/
theorem C2_history_nonneg (pop : Population) (expectations : Bool)
    (n_report : ℤ) (pop' : Population)
    (hold : ∀ x ∈ pop.history, 0 ≤ x)
    (hstep : do_time_step pop expectations n_report = some pop') :
    (∀ x ∈ pop'.history, 0 ≤ x) ∧
    pop'.history.length = pop.history.length + 1 ∧
    pop'.history.take pop.history.length = pop.history := by
  have key : ∃ last v, pop'.history = append_clamped pop.history last v := by
    unfold do_time_step at hstep
    split at hstep
    · split at hstep
      · exact Option.noConfusion hstep
      · obtain rfl := (Option.some.inj hstep).symm
        exact ⟨_, _, rfl⟩
    · split at hstep
      · split at hstep
        · exact Option.noConfusion hstep
        · split at hstep
          · exact Option.noConfusion hstep
          · obtain rfl := (Option.some.inj hstep).symm
            exact ⟨_, _, rfl⟩
      · exact Option.noConfusion hstep
  obtain ⟨last, v, hh⟩ := key
  rw [hh]
  exact ⟨append_clamped_nonneg _ _ _ hold, append_clamped_length _ _ _,
    append_clamped_take _ _ _⟩

/-- C2 witness: the invariant evaluated on one expectation-mode step of the
concrete Population `wpop`. -/
theorem C2_history_nonneg_witness :
    ((∀ x ∈ wpop.history, 0 ≤ x) ∧ do_time_step wpop true 0 = some wstep) ∧
    ((∀ x ∈ wstep.history, 0 ≤ x) ∧
      wstep.history.length = wpop.history.length + 1 ∧
      wstep.history.take wpop.history.length = wpop.history) :=
  ⟨⟨by norm_num [wpop], wpop_step_eq⟩,
    C2_history_nonneg wpop true 0 wstep (by norm_num [wpop]) wpop_step_eq⟩

/-- C3: for every Population with reporting noise enabled (and a Parameter
as its backlog parameter), in data mode with non-empty future,
`do_time_step` realizes the increment `missed_yesterday + n_report` where
`n_report` is the binomial draw (any value in the binomial support
`0 ≤ n_report ≤ future[0]`), sets `missed_yesterday` to
`future[0] - n_report`, and for every such draw the reported increment plus
the new backlog equals the old backlog plus `future[0]`. -/
theorem C3_report_noise_step (pop : Population) (p : Parameter) (f0 : ℚ)
    (rest : List ℚ) (last : ℚ) (n_report : ℤ)
    (hrn : pop.report_noise = true)
    (hpar : pop.report_noise_par = NoiseParArg.paramArg p)
    (hfut : pop.future = f0 :: rest)
    (hlast : pop.history.getLast? = some last)
    (_hdraw : 0 ≤ n_report ∧ ((n_report : ℚ) ≤ f0)) :
    do_time_step pop false n_report = some { pop with
        missed_yesterday := f0 - (n_report : ℚ)
        history := append_clamped pop.history last
          (pop.missed_yesterday + (n_report : ℚ))
        future := rest } ∧
    (pop.missed_yesterday + (n_report : ℚ)) + (f0 - (n_report : ℚ))
        = pop.missed_yesterday + f0 := by
  constructor
  · simp [do_time_step, hrn, hpar, hfut, hlast]
  · ring

/-- C3 witness: one data-mode step with draw `n_report = 1` on the concrete
reporting-noise Population `npop` (backlog 2, `future[0] = 4`). -/
theorem C3_report_noise_step_witness :
    (npop.report_noise = true ∧
      npop.report_noise_par = NoiseParArg.paramArg noisePar ∧
      npop.future = [4] ∧ npop.history.getLast? = some 3 ∧
      (0 ≤ (1 : ℤ) ∧ (((1 : ℤ) : ℚ) ≤ 4))) ∧
    (do_time_step npop false 1 = some { npop with
        missed_yesterday := 4 - ((1 : ℤ) : ℚ)
        history := append_clamped npop.history 3
          (npop.missed_yesterday + ((1 : ℤ) : ℚ))
        future := [] } ∧
      (npop.missed_yesterday + ((1 : ℤ) : ℚ)) + (4 - ((1 : ℤ) : ℚ))
          = npop.missed_yesterday + 4) :=
  ⟨⟨rfl, rfl, rfl, rfl, by norm_num⟩,
    C3_report_noise_step npop noisePar 4 [] 3 1 rfl rfl rfl rfl (by norm_num)⟩

/-- C10: for every Population with reporting noise enabled (backlog
parameter present) and empty future, a data-mode `do_time_step` fails with
the out-of-bounds access `future[0]` (modelled as `none`), whereas the
expectation-mode call on the same state succeeds. -/
theorem C10_empty_future_noise (pop : Population) (n_report : ℤ) (p : Parameter)
    (hrn : pop.report_noise = true)
    (hpar : pop.report_noise_par = NoiseParArg.paramArg p)
    (hfut : pop.future = [])
    (hhist : pop.history ≠ []) :
    do_time_step pop false n_report = none ∧
    (do_time_step pop true n_report).isSome = true := by
  constructor
  · simp [do_time_step, hrn, hpar, hfut]
  · cases hl : pop.history.getLast? with
    | none => exact absurd (List.getLast?_eq_none_iff.mp hl) hhist
    | some last => simp [do_time_step, hl]

/-- C10 witness: the concrete reporting-noise Population `n0pop` with empty
future fails in data mode and succeeds in expectation mode. -/
theorem C10_empty_future_noise_witness :
    (n0pop.report_noise = true ∧
      n0pop.report_noise_par = NoiseParArg.paramArg noisePar ∧
      n0pop.future = [] ∧ n0pop.history ≠ []) ∧
    (do_time_step n0pop false 0 = none ∧
      (do_time_step n0pop true 0).isSome = true) :=
  ⟨⟨rfl, rfl, rfl, by simp [n0pop, npop, wpop]⟩,
    C10_empty_future_noise n0pop 0 noisePar rfl rfl rfl
      (by simp [n0pop, npop, wpop])⟩

/-- The deposition loop grows the future buffer to the maximum of its old
length and the delay support length. -/
theorem update_future_list_length (d : List ℚ) (scale : ℚ) :
    ∀ f : List ℚ, (update_future_list f scale d).length = max f.length d.length := by
  induction d with
  | nil =>
      intro f
      simp [update_future_list]
  | cons a t ih =>
      intro f
      cases f with
      | nil =>
          simp [update_future_list, ih]
      | cons b g =>
          simp [update_future_list, ih]
          omega

/-- Element-wise effect of the deposition loop: inside the delay support the
slot gains the deposited amount (an absent slot counting as 0), beyond it
the slot is unchanged. -/
theorem update_future_list_getD (d : List ℚ) (scale : ℚ) :
    ∀ (f : List ℚ) (i : ℕ),
      (update_future_list f scale d).getD i 0 =
        if i < d.length then f.getD i 0 + d.getD i 0 * scale
        else f.getD i 0 := by
  induction d with
  | nil =>
      intro f i
      simp [update_future_list]
  | cons a t ih =>
      intro f i
      cases f with
      | nil =>
          cases i with
          | zero => simp [update_future_list]
          | succ j => simpa [update_future_list] using ih [] j
      | cons b g =>
          cases i with
          | zero => simp [update_future_list]
          | succ j => simpa [update_future_list] using ih g j

/-- C4: for every Population, scale and delay, `update_future_expectation`
adds `future_expectations[i] * scale` to `future[i]` for every offset `i`
in the delay's support — appending new elements, equal to the deposited
amount, where `future` is shorter — leaves every element beyond the support
unchanged, and the resulting length is the maximum of the old length and
the support length. -/
theorem C4_update_future_expectation (pop : Population) (scale : ℚ)
    (delay : Delay) :
    (update_future_expectation pop scale delay).future.length
        = max pop.future.length delay.future_expectations.length ∧
    (∀ i, i < delay.future_expectations.length →
      (update_future_expectation pop scale delay).future.getD i 0
        = pop.future.getD i 0 + delay.future_expectations.getD i 0 * scale) ∧
    (∀ i, delay.future_expectations.length ≤ i →
      (update_future_expectation pop scale delay).future.getD i 0
        = pop.future.getD i 0) := by
  refine ⟨update_future_list_length _ _ _, ?_, ?_⟩
  · intro i hi
    have h := update_future_list_getD delay.future_expectations scale pop.future i
    rw [if_pos hi] at h
    exact h
  · intro i hi
    have h := update_future_list_getD delay.future_expectations scale pop.future i
    rw [if_neg (not_lt.mpr hi)] at h
    exact h

/-- The draw-accumulation loop of `update_future_data` adds the total of
the realized draw to the total mass of the future buffer. -/
theorem add_draws_sum (ds : List ℕ) :
    ∀ f : List ℚ, (add_draws f ds).sum = f.sum + (ds.sum : ℚ) := by
  induction ds with
  | nil =>
      intro f
      simp [add_draws]
  | cons n t ih =>
      intro f
      cases f with
      | nil =>
          simp [add_draws, ih]
      | cons b g =>
          simp [add_draws, ih]
          ring

/-- Element-wise effect of the draw-accumulation loop. -/
theorem add_draws_getD (ds : List ℕ) :
    ∀ (f : List ℚ) (i : ℕ),
      (add_draws f ds).getD i 0 =
        if i < ds.length then f.getD i 0 + (ds.getD i 0 : ℚ)
        else f.getD i 0 := by
  induction ds with
  | nil =>
      intro f i
      simp [add_draws]
  | cons n t ih =>
      intro f i
      cases f with
      | nil =>
          cases i with
          | zero => simp [add_draws]
          | succ j => simpa [add_draws] using ih [] j
      | cons b g =>
          cases i with
          | zero => simp [add_draws]
          | succ j => simpa [add_draws] using ih g j

/-- The draw-accumulation loop grows the future buffer to the maximum of
its old length and the draw vector length. -/
theorem add_draws_length (ds : List ℕ) :
    ∀ f : List ℚ, (add_draws f ds).length = max f.length ds.length := by
  induction ds with
  | nil =>
      intro f
      simp [add_draws]
  | cons n t ih =>
      intro f
      cases f with
      | nil =>
          simp [add_draws, ih]
      | cons b g =>
          simp [add_draws, ih]
          omega

/-- A one-bin delay (instantaneous point mass). -/
def dly1 : Delay := { future_expectations := [1] }

/-- C5 counterexample: with `scale = 27/10` the multinomial total drawn by
the code is `int(scale) = 2` (truncation), so the valid draw `[2]` adds a
total of 2 to the future buffer, while `round(scale) = 3`. -/
theorem C5_counterexample :
    multinomial_support (pyInt (27/10)) dly1.future_expectations [2] ∧
    (update_future_data n0pop (27/10) dly1 [2]).future.sum
        - n0pop.future.sum = 2 ∧
    pyRound (27/10) = 3 ∧
    ((2 : ℚ) ≠ ((pyRound (27/10) : ℤ) : ℚ)) := by
  refine ⟨⟨rfl, by norm_num [pyInt]⟩, ?_, by norm_num [pyRound], ?_⟩
  · norm_num [update_future_data, add_draws, n0pop, npop, wpop]
  · norm_num [pyRound]

/-- C5 (amended): for every Population, `update_future_data` adds one
realized multinomial draw of total size `int(scale)` (truncation toward
zero, not `round(scale)`) offset-wise into `future`, extending it as
needed: for every draw in the multinomial support the total amount added
equals `int(scale)`, each slot inside the draw's range gains its draw, every
slot beyond is unchanged, and the length becomes the maximum of the old
length and the category count. -/
theorem C5_update_future_data (pop : Population) (scale : ℚ) (delay : Delay)
    (dist : List ℕ)
    (hsupp : multinomial_support (pyInt scale) delay.future_expectations dist) :
    ((update_future_data pop scale delay dist).future.sum
        = pop.future.sum + ((pyInt scale : ℤ) : ℚ)) ∧
    (∀ i, i < dist.length →
      (update_future_data pop scale delay dist).future.getD i 0
        = pop.future.getD i 0 + (dist.getD i 0 : ℚ)) ∧
    (∀ i, dist.length ≤ i →
      (update_future_data pop scale delay dist).future.getD i 0
        = pop.future.getD i 0) ∧
    (update_future_data pop scale delay dist).future.length
        = max pop.future.length dist.length := by
  obtain ⟨hlen, hsum⟩ := hsupp
  refine ⟨?_, ?_, ?_, add_draws_length _ _⟩
  · show (add_draws pop.future dist).sum = pop.future.sum + ((pyInt scale : ℤ) : ℚ)
    rw [add_draws_sum, ← hsum]
    congr 1
  · intro i hi
    have h := add_draws_getD dist pop.future i
    rw [if_pos hi] at h
    exact h
  · intro i hi
    have h := add_draws_getD dist pop.future i
    rw [if_neg (not_lt.mpr hi)] at h
    exact h

/-- C5 witness: the amended statement evaluated at `scale = 27/10` with the
concrete draw `[2]` on the empty-future Population `n0pop`. -/
theorem C5_update_future_data_witness :
    multinomial_support (pyInt (27/10)) dly1.future_expectations [2] ∧
    (((update_future_data n0pop (27/10) dly1 [2]).future.sum
        = n0pop.future.sum + ((pyInt (27/10) : ℤ) : ℚ)) ∧
      (∀ i, i < [2].length →
        (update_future_data n0pop (27/10) dly1 [2]).future.getD i 0
          = n0pop.future.getD i 0 + (([2].getD i 0 : ℕ) : ℚ)) ∧
      (∀ i, [2].length ≤ i →
        (update_future_data n0pop (27/10) dly1 [2]).future.getD i 0
          = n0pop.future.getD i 0) ∧
      (update_future_data n0pop (27/10) dly1 [2]).future.length
          = max n0pop.future.length [2].length) :=
  ⟨⟨rfl, by norm_num [pyInt]⟩,
    C5_update_future_data n0pop (27/10) dly1 [2] ⟨rfl, by norm_num [pyInt]⟩⟩

end PyPM
